import Mathlib

set_option linter.unusedVariables false

/-!
Shallow embedding of the tokenizers in `nlp_preprocessors/Tokenizer.py`.

Python ints are modelled as `Nat`/`Int`; the floating point samples, padding
values and random-projection entries are modelled as exact rationals `ℚ`
(all comparisons and arithmetic used by the code are order/field operations
that the idealised reals share with `ℚ`).  Fallible numpy operations are
modelled with `Except PyError`.
-/

/-- Python/numpy runtime errors that the embedded code can raise.
`malformedInput` stands for the dedicated malformed-input/configuration
error named by the specification's error taxonomy; the source code never
defines nor raises such an error, so no embedded definition produces it. -/
inductive PyError where
  /-- Python ZeroDivisionError from dividing by a zero stride. -/
  | zeroDivision
  /-- numpy ValueError from np.pad with a negative pad width. -/
  | valueErrorPad
  /-- numpy ValueError: need at least one array to concatenate. -/
  | valueErrorConcat
  /-- numpy ValueError from np.empty with a negative dimension. -/
  | valueErrorDim
  /-- numpy ValueError from assigning a slice of the wrong shape. -/
  | valueErrorBroadcast
  /-- Python TypeError, e.g. str.join applied to a sequence of ints. -/
  | typeError
  /-- Python AttributeError, e.g. reading .shape of a non-array object. -/
  | attributeError
  /-- A dedicated malformed-input error (spec taxonomy; absent from the code). -/
  | malformedInput
  deriving DecidableEq, Repr

/-- TextTokenizer.special_tokens (Tokenizer.py line 38). -/
def specialTokens : List String := ["<PAD>", "<CLS>", "<SEP>", "<MASK>", "<UNK>"]

/-- HashingBasedTokenizer.numerize (Tokenizer.py lines 50-54) applied to the
integer value of the sha3_224 digest of the token.  The cryptographic hash
itself is an external collaborator (spec section 6), so the digest value is a
parameter: numerize returns max(digest mod num_embeddings,
padding_idx + len(special_tokens)). -/
def hashClamp (digest num_embeddings padding_idx : ℕ) : ℕ :=
  max (digest % num_embeddings) (padding_idx + specialTokens.length)

/-- HashingBasedTokenizer.numerize on a token string, with the sha3_224
digest-to-integer map passed in as the external hash collaborator. -/
def hbNumerize (sha3 : String → ℕ) (num_embeddings padding_idx : ℕ)
    (token : String) : ℕ :=
  hashClamp (sha3 token) num_embeddings padding_idx

/-- PrecisePositionalCharacterLevelWordTokenizer.positionize
(Tokenizer.py lines 203-205): positions i = min(i, max_positional - 1),
returned together with the unchanged character list. -/
def positionize (max_positional : ℤ) (chars : List Char) :
    List Char × List ℤ :=
  (chars, (List.range chars.length).map (fun (i : ℕ) => min (i : ℤ) (max_positional - 1)))

/-- PositionalCharacterLevelWordTokenizer.numerize (Tokenizer.py lines
168-173): maps each character through the string hash, returns the
positions component untouched. -/
def posNumerize (sha3 : String → ℕ) (num_embeddings padding_idx : ℕ)
    (token : List Char × List ℤ) : List ℕ × List ℤ :=
  (token.1.map (fun c => hbNumerize sha3 num_embeddings padding_idx (String.mk [c])),
   token.2)

/-- Modelled from the spec: `word2ngram` lives in
`nlp_preprocessors/utilities.py`, which is not under src/.  Spec section 4.4:
"Given a word string and a gram size n, produces every contiguous substring
of length n (empty list if len(word) < n)". -/
def word2ngram (word : List Char) (n : ℕ) : List (List Char) :=
  if word.length < n then []
  else (List.range (word.length - n + 1)).map (fun i => (word.drop i).take n)

/-- Modelled from the spec: `word2skipngram` lives in
`nlp_preprocessors/utilities.py`, which is not under src/.  Spec section 4.4:
"Given a skip size k, produces every subsequence obtained by picking
characters with a step of k starting at each valid offset", the valid
starting offsets being 0 .. k-1 (spec section 8 example: "hello", k=2 gives
offsets \x7b0,2,4\x7d and \x7b1,3\x7d, i.e. ["hlo", "el"]). -/
def word2skipngram (word : List Char) (k : ℕ) : List (List Char) :=
  (List.range k).map (fun r =>
    (word.enum.filterMap (fun ic =>
      if r ≤ ic.1 ∧ (ic.1 - r) % k = 0 then some ic.2 else none)))

/-- NgramLevelWordTokenizer.tokenize, inner per-word loop (Tokenizer.py
lines 94-100): starts from an empty gram list, extends it with
word2ngram(word, n) for each configured n in order, then with
word2skipngram(word, k) for each configured k in order. -/
def gramsOfWord (ngrams skipngrams : List ℕ) (word : List Char) :
    List (List Char) :=
  let grams := ngrams.foldl (fun acc n => acc ++ word2ngram word n) []
  skipngrams.foldl (fun acc k => acc ++ word2skipngram word k) grams

/-- Dot product of two rational vectors (one row of tokens @ random_vecs.T). -/
def dot (v r : List ℚ) : ℚ := (List.zipWith (· * ·) v r).sum

/-- int("".join(str(b) for b in bits), 2): reads a list of bits with the
head as the most significant bit. -/
def bitsToNat (bits : List ℕ) : ℕ :=
  bits.foldl (fun acc b => 2 * acc + b) 0

/-- SignalTokenizer.numerize (Tokenizer.py lines 244-252): for each window,
take the sign bit of the dot product with every basis row (1 iff > 0), read
the bit string as a binary number, reduce modulo num_embeddings, and clamp
below at padding_idx + 1. -/
def signalNumerize (random_vecs : List (List ℚ)) (num_embeddings padding_idx : ℕ)
    (tokens : List (List ℚ)) : List ℕ :=
  tokens.map (fun v =>
    max ((bitsToNat (random_vecs.map (fun r => if 0 < dot v r then 1 else 0)))
          % num_embeddings)
        (padding_idx + 1))

/-- ImageTokenizer.numerize (Tokenizer.py lines 326-339).  The lambda inside
np.apply_along_axis evaluates "".join(x) where x is a numpy array of ints:
str.join requires string items, so the first application raises TypeError.
When some window row exists the lambda is applied and TypeError is raised;
with zero windows np.apply_along_axis raises a ValueError about empty
iteration dimensions.  No integer output is ever produced. -/
def imageNumerize (random_vecs : List (List ℚ)) (num_embeddings : ℕ)
    (tokens : List (List (List (List ℚ)))) : Except PyError (List (List ℕ)) :=
  if tokens.any (fun row => !row.isEmpty) then .error .typeError
  else .error .valueErrorDim

/-- SignalTokenizer.tokenizer (Tokenizer.py lines 228-242).
output_length = ceil((L - W)/S + 1); padding_size = (output_length - 1)*S
- L + W; the signal is padded at the end with padding_size copies of the
padding value, then window i is the slice [i*S, i*S + W) of the padded
signal.  np.pad raises on a negative pad width and np.concatenate raises
when range(output_length) is empty. -/
def signalWindows (window_size stride : ℕ) (padding_value : ℚ)
    (signal : List ℚ) : Except PyError (List (List ℚ)) :=
  if stride = 0 then .error .zeroDivision
  else
    let L := signal.length
    let output_length : ℤ :=
      ⌈((L : ℚ) - (window_size : ℚ)) / (stride : ℚ) + 1⌉
    let padding_size : ℤ :=
      (output_length - 1) * (stride : ℤ) - (L : ℤ) + (window_size : ℤ)
    if padding_size < 0 then .error .valueErrorPad
    else
      let padded := signal ++ List.replicate padding_size.toNat padding_value
      if output_length ≤ 0 then .error .valueErrorConcat
      else .ok ((List.range output_length.toNat).map
        (fun i => (padded.drop (i * stride)).take window_size))

/-- np.pad(image, (b, a), "constant", constant_values = p) on a 2D array of
width w: numpy interprets the pair (b, a) as (pad before, pad after) for
EVERY axis, so b rows of padding are prepended and a rows appended, and
every row gains b entries of padding on the left and a on the right. -/
def npPad2 (b a : ℕ) (p : ℚ) (w : ℕ) (img : List (List ℚ)) : List (List ℚ) :=
  List.replicate b (List.replicate (b + w + a) p)
    ++ img.map (fun r => List.replicate b p ++ r ++ List.replicate a p)
    ++ List.replicate a (List.replicate (b + w + a) p)

/-- ImageTokenizer.tokenizer (Tokenizer.py lines 296-324).  Per-axis output
sizes and padding sizes follow the 1D formula; np.pad is applied with the
pair (height_padding_size, width_padding_size), which numpy takes as
(before, after) padding on both axes; window (i, j) is the slice
image[i*stride : i*stride + window_height, i*stride : i*stride +
window_width] of the padded image — the source computes start_x from i,
the row index, for the column slice as well (line 320).  Assigning a slice
whose shape differs from (window_height, window_width) into the
preallocated np.empty raises a broadcast ValueError; np.empty raises on a
negative dimension. -/
def imageWindows (window_height window_width stride : ℕ) (padding_value : ℚ)
    (image : List (List ℚ)) : Except PyError (List (List (List (List ℚ)))) :=
  if stride = 0 then .error .zeroDivision
  else
    let height := image.length
    let width := (image.headD []).length
    let output_height : ℤ :=
      ⌈((height : ℚ) - (window_height : ℚ)) / (stride : ℚ) + 1⌉
    let height_padding_size : ℤ :=
      (output_height - 1) * (stride : ℤ) - (height : ℤ) + (window_height : ℤ)
    let output_width : ℤ :=
      ⌈((width : ℚ) - (window_width : ℚ)) / (stride : ℚ) + 1⌉
    let width_padding_size : ℤ :=
      (output_width - 1) * (stride : ℤ) - (width : ℤ) + (window_width : ℤ)
    if height_padding_size < 0 ∨ width_padding_size < 0 then .error .valueErrorPad
    else
      let padded := npPad2 height_padding_size.toNat width_padding_size.toNat
        padding_value width image
      if output_height < 0 ∨ output_width < 0 then .error .valueErrorDim
      else
        let win := fun (i : ℕ) (_j : ℕ) =>
          ((padded.drop (i * stride)).take window_height).map
            (fun row => (row.drop (i * stride)).take window_width)
        let tokens := (List.range output_height.toNat).map (fun i =>
          (List.range output_width.toNat).map (fun j => win i j))
        if tokens.all (fun row => row.all (fun w =>
            w.length = window_height ∧ w.all (fun r => r.length = window_width)))
        then .ok tokens
        else .error .valueErrorBroadcast

/-- The 2D window extraction as the claim states it: padding is applied
separately per axis (that axis's own padding size, appended at the end of
that axis as in the 1D case), and window (i, j) is the slice of the padded
image at rows i*stride .. i*stride + window_height and columns j*stride ..
j*stride + window_width, the column slice using the column index j. -/
def imageWindowsClaimed (window_height window_width stride : ℕ)
    (padding_value : ℚ) (image : List (List ℚ)) :
    Except PyError (List (List (List (List ℚ)))) :=
  if stride = 0 then .error .zeroDivision
  else
    let height := image.length
    let width := (image.headD []).length
    let output_height : ℤ :=
      ⌈((height : ℚ) - (window_height : ℚ)) / (stride : ℚ) + 1⌉
    let height_padding_size : ℤ :=
      (output_height - 1) * (stride : ℤ) - (height : ℤ) + (window_height : ℤ)
    let output_width : ℤ :=
      ⌈((width : ℚ) - (window_width : ℚ)) / (stride : ℚ) + 1⌉
    let width_padding_size : ℤ :=
      (output_width - 1) * (stride : ℤ) - (width : ℤ) + (window_width : ℤ)
    if height_padding_size < 0 ∨ width_padding_size < 0 then .error .valueErrorPad
    else
      let padded :=
        (image.map (fun r => r ++ List.replicate width_padding_size.toNat padding_value))
          ++ List.replicate height_padding_size.toNat
              (List.replicate (width + width_padding_size.toNat) padding_value)
      if output_height < 0 ∨ output_width < 0 then .error .valueErrorDim
      else
        .ok ((List.range output_height.toNat).map (fun i =>
          (List.range output_width.toNat).map (fun j =>
            ((padded.drop (i * stride)).take window_height).map
              (fun row => (row.drop (j * stride)).take window_width))))

/-- Helper for ceilLog2: scans upward from exponent b while fuel lasts,
returning the first exponent e with n ≤ 2 ^ e. -/
def ceilLog2Aux : ℕ → ℕ → ℕ → ℕ
  | 0, _, b => b
  | fuel + 1, n, b => if n ≤ 2 ^ b then b else ceilLog2Aux fuel n (b + 1)

/-- math.ceil(math.log(n, 2)) for n ≥ 1: the least e with n ≤ 2 ^ e
(idealising the floating-point log as the exact base-2 logarithm). -/
def ceilLog2 (n : ℕ) : ℕ := ceilLog2Aux n n 0

/-- np.random.seed(s): resets the global numpy random state to a state
fully determined by s.  Modelled from the spec: numpy's random generator is
an external collaborator (spec section 6, "a Gaussian random-number source
(seed, shape → matrix of floats)"); the state is modelled as a natural
number and seeding discards the previous state. -/
def npSeed (s : ℕ) : ℕ := s

/-- np.random.normal(size = [rows, cols]) on global state g.  Modelled from
the spec: the Gaussian random-number source is an external collaborator
(spec section 6); modelled as a deterministic stand-in producing a matrix
that is a function of the state and advancing the state.  Only determinism
and shape are relied upon. -/
def npNormal (g rows cols : ℕ) : List (List ℚ) × ℕ :=
  ((List.range rows).map (fun i =>
    (List.range cols).map (fun j => ((g + i * cols + j : ℕ) : ℚ) + 1)),
   g + rows * cols + 1)

/-- The per-instance configuration of SignalTokenizer (Tokenizer.py lines
208-223). -/
structure SigState where
  num_embeddings : ℕ
  padding_idx : ℕ
  window_size : ℕ
  stride : ℕ
  padding_value : ℚ
  random_vecs : List (List ℚ)
  deriving DecidableEq, Repr

/-- SignalTokenizer.__init__ (Tokenizer.py lines 208-223) run with the
global numpy random state g: np.random.seed(random_seed) overwrites g, then
random_vecs = np.random.normal(size = [ceil(log2 num_embeddings),
window_size]) is drawn from the re-seeded state.  Returns the constructed
instance together with the new global random state. -/
def mkSignalTokenizer (num_embeddings padding_idx window_size stride : ℕ)
    (padding_value : ℚ) (random_seed : ℕ) (g : ℕ) : SigState × ℕ :=
  let g1 := npSeed random_seed
  let mg := npNormal g1 (ceilLog2 num_embeddings) window_size
  ({ num_embeddings, padding_idx, window_size, stride, padding_value,
     random_vecs := mg.1 }, mg.2)

/-- One full SignalTokenizer pipeline execution numerize(tokenizer(x))
(Tokenizer.py lines 225-252). -/
def runSignal (st : SigState) (signal : List ℚ) : Except PyError (List ℕ) :=
  (signalWindows st.window_size st.stride st.padding_value signal).map
    (signalNumerize st.random_vecs st.num_embeddings st.padding_idx)

/-- The fields of a constructed SpectrogramTokenizer.  stride and
padding_value are modelled as ℚ because the misaligned super().__init__
call (see mkSpectrogram) stores the float padding_value in the stride slot. -/
structure SpectroFields where
  num_embeddings : ℕ
  padding_idx : ℕ
  window_size : ℕ
  stride : ℚ
  padding_value : ℚ
  sampling_rate : ℕ
  n_fft : ℕ
  hop_length : ℕ
  random_vecs : List (List ℚ)
  deriving DecidableEq, Repr

/-- SpectrogramTokenizer.__init__ (Tokenizer.py lines 342-359).  The call
super().__init__(num_embeddings, window_size, stride, padding_value,
random_seed) binds SignalTokenizer.__init__'s positional parameters
(num_embeddings, padding_idx, window_size, stride, padding_value,
random_seed): padding_idx receives window_size, window_size receives
stride, stride receives padding_value, padding_value receives random_seed,
and random_seed takes its default 0.  The parent thus seeds with 0 and
draws a [ceil(log2 N), stride]-shaped basis, which the subclass then
overwrites after re-seeding with the real random_seed, using shape
[ceil(log2 N), window_size * window_size]. -/
def mkSpectrogram (num_embeddings sampling_rate n_fft hop_length
    window_size stride : ℕ) (padding_value : ℚ) (random_seed : ℕ)
    (g : ℕ) : SpectroFields × ℕ :=
  let parent := npNormal (npSeed 0) (ceilLog2 num_embeddings) stride
  let mg := npNormal (npSeed random_seed) (ceilLog2 num_embeddings)
    (window_size * window_size)
  ({ num_embeddings,
     padding_idx := window_size,
     window_size := stride,
     stride := padding_value,
     padding_value := (random_seed : ℚ),
     sampling_rate, n_fft, hop_length,
     random_vecs := mg.1 }, mg.2)

instance instDecEqExcept {ε α : Type _} [DecidableEq ε] [DecidableEq α] :
    DecidableEq (Except ε α) := fun a b =>
  match a, b with
  | .ok x, .ok y =>
    if h : x = y then .isTrue (by rw [h]) else .isFalse (by intro c; cases c; exact h rfl)
  | .error x, .error y =>
    if h : x = y then .isTrue (by rw [h]) else .isFalse (by intro c; cases c; exact h rfl)
  | .ok _, .error _ => .isFalse (by intro c; cases c)
  | .error _, .ok _ => .isFalse (by intro c; cases c)

/-! ### Arithmetic facts about the windowing formulas -/

/-- The padding size (output_length - 1) * stride - length + window_size is
never negative: np.pad never receives a negative pad width. -/
lemma padding_nonneg (L W S : ℕ) (hS : 0 < S) :
    0 ≤ (⌈((L : ℚ) - (W : ℚ)) / (S : ℚ) + 1⌉ - 1) * (S : ℤ) - (L : ℤ) + (W : ℤ) := by
  have hS' : (0 : ℚ) < (S : ℚ) := by exact_mod_cast hS
  have h := Int.le_ceil (((L : ℚ) - (W : ℚ)) / (S : ℚ) + 1)
  set ol : ℤ := ⌈((L : ℚ) - (W : ℚ)) / (S : ℚ) + 1⌉ with hol
  have h2 : ((L : ℚ) - (W : ℚ)) / (S : ℚ) ≤ (ol : ℚ) - 1 := by linarith
  have h3 : ((L : ℚ) - (W : ℚ)) ≤ ((ol : ℚ) - 1) * (S : ℚ) := by
    rw [div_le_iff₀ hS'] at h2; exact h2
  have h4 : (0 : ℚ) ≤ (((ol - 1) * (S : ℤ) - (L : ℤ) + (W : ℤ) : ℤ) : ℚ) := by
    push_cast; linarith
  exact_mod_cast h4

/-- When the signal is at least as long as the window, output_length ≥ 1. -/
lemma output_length_pos (L W S : ℕ) (hS : 0 < S) (hLW : W ≤ L) :
    1 ≤ ⌈((L : ℚ) - (W : ℚ)) / (S : ℚ) + 1⌉ := by
  have hS' : (0 : ℚ) < (S : ℚ) := by exact_mod_cast hS
  have hWL : (W : ℚ) ≤ (L : ℚ) := by exact_mod_cast hLW
  have h0 : (0 : ℚ) ≤ ((L : ℚ) - (W : ℚ)) / (S : ℚ) :=
    div_nonneg (by linarith) hS'.le
  have : (0 : ℤ) < ⌈((L : ℚ) - (W : ℚ)) / (S : ℚ) + 1⌉ :=
    Int.lt_ceil.mpr (by push_cast; linarith)
  omega

/-! ### Reading a bit list as a binary numeral -/

/-- Folding the binary accumulator from a is the fold from 0 plus a shifted. -/
lemma foldl_bits (bits : List ℕ) :
    ∀ a, bits.foldl (fun acc b => 2 * acc + b) a = a * 2 ^ bits.length + bitsToNat bits := by
  induction bits with
  | nil => intro a; simp [bitsToNat]
  | cons b bs ih =>
    intro a
    simp only [List.foldl_cons, List.length_cons, bitsToNat] at *
    rw [ih (2 * a + b), ih (2 * 0 + b)]
    ring

/-- int("".join(bits), 2) equals the weighted sum with the head bit most
significant. -/
lemma bitsToNat_eq_sum (bits : List ℕ) :
    bitsToNat bits
      = ∑ k ∈ Finset.range bits.length, bits.getD k 0 * 2 ^ (bits.length - 1 - k) := by
  induction bits with
  | nil => simp [bitsToNat]
  | cons b bs ih =>
    have hcons : bitsToNat (b :: bs) = b * 2 ^ bs.length + bitsToNat bs := by
      have h0 : bitsToNat (b :: bs) = bs.foldl (fun acc x => 2 * acc + x) (2 * 0 + b) := rfl
      rw [h0, foldl_bits bs (2 * 0 + b)]
      ring
    have hexp : ∀ k, bs.length + 1 - 1 - (k + 1) = bs.length - 1 - k := fun k => by omega
    rw [hcons, List.length_cons, Finset.sum_range_succ', ih]
    simp only [List.getD_cons_succ, hexp, List.getD_cons_zero, Nat.add_sub_cancel,
      Nat.sub_zero]
    have hexp2 : ∀ x, bs.length - 1 - x = bs.length - (x + 1) := fun x => by omega
    simp only [hexp2]
    ring

/-! ### Accumulating loops -/

/-- The extend-in-a-loop pattern is concatenation of the per-item lists. -/
lemma foldl_append_flatten {α β : Type _} (f : α → List β) :
    ∀ (l : List α) (init : List β),
      l.foldl (fun acc n => acc ++ f n) init = init ++ (l.map f).flatten := by
  intro l
  induction l with
  | nil => intro init; simp
  | cons x xs ih => intro init; simp [ih, List.append_assoc]

/-! ### ceilLog2 is the ceiling of the base-2 logarithm -/

lemma ceilLog2Aux_spec :
    ∀ fuel n b, n ≤ 2 ^ (b + fuel) →
      n ≤ 2 ^ ceilLog2Aux fuel n b
        ∧ ∀ e, b ≤ e → n ≤ 2 ^ e → ceilLog2Aux fuel n b ≤ e := by
  intro fuel
  induction fuel with
  | zero =>
    intro n b h
    exact ⟨h, fun e hbe _ => hbe⟩
  | succ fuel ih =>
    intro n b h
    by_cases hb : n ≤ 2 ^ b
    · simp only [ceilLog2Aux, if_pos hb]
      exact ⟨hb, fun e hbe _ => hbe⟩
    · simp only [ceilLog2Aux, if_neg hb]
      have h' : n ≤ 2 ^ (b + 1 + fuel) := by
        have : b + 1 + fuel = b + (fuel + 1) := by omega
        rw [this]; exact h
      obtain ⟨h1, h2⟩ := ih n (b + 1) h'
      refine ⟨h1, fun e hbe he => ?_⟩
      have : b + 1 ≤ e := by
        rcases Nat.eq_or_lt_of_le hbe with rfl | hlt
        · exact absurd he hb
        · omega
      exact h2 e this he

/-- 2 ^ ceilLog2 n is at least n: ceilLog2 n is a large enough exponent. -/
lemma le_two_pow_ceilLog2 (n : ℕ) : n ≤ 2 ^ ceilLog2 n :=
  (ceilLog2Aux_spec n n 0 (by simpa using (Nat.lt_two_pow n).le)).1

/-- ceilLog2 n is the least exponent e with n ≤ 2 ^ e. -/
lemma ceilLog2_le (n e : ℕ) (h : n ≤ 2 ^ e) : ceilLog2 n ≤ e :=
  (ceilLog2Aux_spec n n 0 (by simpa using (Nat.lt_two_pow n).le)).2 e (Nat.zero_le e) h

/-! ### The window extraction in its successful regime -/

/-- When the window fits (W ≤ L, S ≥ 1) the tokenizer succeeds and returns
the windows of the padded signal. -/
lemma signalWindows_ok (W S : ℕ) (p : ℚ) (signal : List ℚ)
    (hS : 0 < S) (hLW : W ≤ signal.length) :
    signalWindows W S p signal =
      .ok ((List.range (⌈((signal.length : ℚ) - (W : ℚ)) / (S : ℚ) + 1⌉).toNat).map
        (fun i => ((signal ++ List.replicate
            ((⌈((signal.length : ℚ) - (W : ℚ)) / (S : ℚ) + 1⌉ - 1) * (S : ℤ)
              - (signal.length : ℤ) + (W : ℤ)).toNat p).drop
            (i * S)).take W)) := by
  have h1 := padding_nonneg signal.length W S hS
  have h2 := output_length_pos signal.length W S hS hLW
  unfold signalWindows
  rw [if_neg (by omega : ¬ S = 0), if_neg (by omega), if_neg (by omega)]

lemma paddedSignal_length (W S : ℕ) (p : ℚ) (signal : List ℚ) (hS : 0 < S) :
    ((signal ++ List.replicate
        ((⌈((signal.length : ℚ) - (W : ℚ)) / (S : ℚ) + 1⌉ - 1) * (S : ℤ)
          - (signal.length : ℤ) + (W : ℤ)).toNat p).length : ℤ)
      = (⌈((signal.length : ℚ) - (W : ℚ)) / (S : ℚ) + 1⌉ - 1) * (S : ℤ) + (W : ℤ) := by
  have h1 := padding_nonneg signal.length W S hS
  rw [List.length_append, List.length_replicate]
  push_cast [Int.toNat_of_nonneg h1]
  ring

/-- C3 (corrected): for a 1D signal with L ≥ W and stride S ≥ 1 the
extractor produces exactly ceil((L - W)/S + 1) windows, each of exactly W
elements; window i is the slice [i*S, i*S + W) of the signal extended at
the end with (output_length - 1)*S - L + W copies of the padding value
(indices are never negative, so no window reads before index 0); and
PROVIDED S ≤ W every original sample appears verbatim in at least one
window — for S > W samples strictly between consecutive windows are
skipped (see the counterexample). -/
theorem claim_C3_window_shape_amended (W S : ℕ) (p : ℚ) (signal : List ℚ)
    (hW : 1 ≤ W) (hS : 1 ≤ S) (hL : W ≤ signal.length) :
    ∃ ws, signalWindows W S p signal = Except.ok ws ∧
      (ws.length : ℤ) = ⌈((signal.length : ℚ) - (W : ℚ)) / (S : ℚ) + 1⌉ ∧
      (∀ w ∈ ws, w.length = W) ∧
      (∀ i j, i < ws.length → j < W →
        (ws.getD i []).getD j p =
          (signal ++ List.replicate
            ((⌈((signal.length : ℚ) - (W : ℚ)) / (S : ℚ) + 1⌉ - 1) * (S : ℤ)
              - (signal.length : ℤ) + (W : ℤ)).toNat p).getD (i * S + j) p) ∧
      (S ≤ W → ∀ jx, jx < signal.length → ∃ i, i < ws.length ∧
        i * S ≤ jx ∧ jx < i * S + W ∧
        (ws.getD i []).getD (jx - i * S) p = signal.getD jx p) := by
  have hS0 : 0 < S := hS
  set ol : ℤ := ⌈((signal.length : ℚ) - (W : ℚ)) / (S : ℚ) + 1⌉ with holdef
  set padded : List ℚ := signal ++ List.replicate
      ((ol - 1) * (S : ℤ) - (signal.length : ℤ) + (W : ℤ)).toNat p with hpaddef
  set ws : List (List ℚ) :=
    (List.range ol.toNat).map (fun i => (padded.drop (i * S)).take W) with hwsdef
  have h2 : 1 ≤ ol := output_length_pos signal.length W S hS0 hL
  have hplen : (padded.length : ℤ) = (ol - 1) * (S : ℤ) + (W : ℤ) :=
    paddedSignal_length W S p signal hS0
  have hwslen : ws.length = ol.toNat := by
    simp [hwsdef]
  have hfull : ∀ i, i < ol.toNat → i * S + W ≤ padded.length := by
    intro i hi
    have hi' : (i : ℤ) ≤ ol - 1 := by omega
    have hmul : (i : ℤ) * (S : ℤ) ≤ (ol - 1) * (S : ℤ) :=
      mul_le_mul_of_nonneg_right hi' (by positivity)
    have : (i : ℤ) * S + W ≤ (padded.length : ℤ) := by rw [hplen]; omega
    exact_mod_cast this
  have hwin : ∀ i, i < ol.toNat → ws.getD i [] = (padded.drop (i * S)).take W := by
    intro i hi
    rw [List.getD_eq_getElem _ _ (by rw [hwslen]; exact hi)]
    simp [hwsdef]
  have hwinlen : ∀ i, i < ol.toNat → (ws.getD i []).length = W := by
    intro i hi
    rw [hwin i hi]
    have := hfull i hi
    simp [List.length_take, List.length_drop]
    omega
  have helemPad : ∀ i j, i < ol.toNat → j < W →
      (ws.getD i []).getD j p = padded.getD (i * S + j) p := by
    intro i j hi hj
    have hfu := hfull i hi
    have hjlt : j < (ws.getD i []).length := by rw [hwinlen i hi]; exact hj
    rw [List.getD_eq_getElem _ _ hjlt]
    have hplt : i * S + j < padded.length := by omega
    rw [List.getD_eq_getElem _ _ hplt]
    simp only [hwin i hi] at hjlt ⊢
    rw [List.getElem_take, List.getElem_drop]
  refine ⟨ws, signalWindows_ok W S p signal hS0 hL, ?_, ?_, ?_, ?_⟩
  · rw [hwslen]; omega
  · intro w hw
    rw [hwsdef] at hw
    obtain ⟨i, hi, rfl⟩ := List.mem_map.mp hw
    have hi' := List.mem_range.mp hi
    have := hfull i hi'
    simp [List.length_take, List.length_drop]
    omega
  · intro i j hi hj
    exact helemPad i j (by rw [hwslen] at hi; exact hi) hj
  · intro hSW jx hjx
    have hsp : signal.length ≤ padded.length := by
      rw [hpaddef]; simp [List.length_append]
    have hgetsig : ∀ m, m < signal.length → padded.getD m p = signal.getD m p := by
      intro m hm
      rw [List.getD_eq_getElem _ _ (by omega : m < padded.length),
        List.getD_eq_getElem _ _ hm]
      exact List.getElem_append_left hm
    by_cases hc : jx / S < ol.toNat
    · refine ⟨jx / S, by rw [hwslen]; exact hc, Nat.div_mul_le_self jx S, ?_, ?_⟩
      · have h3 := Nat.div_add_mod jx S
        rw [mul_comm S (jx / S)] at h3
        have h4 := Nat.mod_lt jx hS0
        have h5 : jx < jx / S * S + S := by omega
        omega
      · have hdm : jx / S * S ≤ jx := Nat.div_mul_le_self jx S
        have h3 := Nat.div_add_mod jx S
        rw [mul_comm S (jx / S)] at h3
        have h4 := Nat.mod_lt jx hS0
        have hjW : jx - jx / S * S < W := by omega
        rw [helemPad (jx / S) (jx - jx / S * S) hc hjW]
        rw [Nat.add_sub_cancel' hdm]
        exact hgetsig jx hjx
    · push_neg at hc
      have holN : 1 ≤ ol.toNat := by omega
      have hmulle : ol.toNat * S ≤ jx := (Nat.le_div_iff_mul_le hS0).mp hc
      have hstep : (ol.toNat - 1) * S ≤ jx := by
        have : (ol.toNat - 1) * S ≤ ol.toNat * S :=
          Nat.mul_le_mul_right S (by omega)
        omega
      have hplenN : padded.length = (ol.toNat - 1) * S + W := by
        have hc1 : ((ol.toNat - 1 : ℕ) : ℤ) = ol - 1 := by omega
        have : ((padded.length : ℕ) : ℤ) = (((ol.toNat - 1) * S + W : ℕ) : ℤ) := by
          rw [hplen]; push_cast [hc1]; ring
        exact_mod_cast this
      have hjlt : jx < (ol.toNat - 1) * S + W := by omega
      refine ⟨ol.toNat - 1, by rw [hwslen]; omega, hstep, hjlt, ?_⟩
      have hjW : jx - (ol.toNat - 1) * S < W := by omega
      rw [helemPad (ol.toNat - 1) (jx - (ol.toNat - 1) * S) (by omega) hjW]
      rw [Nat.add_sub_cancel' hstep]
      exact hgetsig jx hjx

/-- bitsToNat over a mapped bit function, indexed through getD. -/
lemma bitsToNat_map_eq_sum {α : Type _} (f : α → ℕ) (l : List α) (d : α)
    (hd : f d = 0) :
    bitsToNat (l.map f)
      = ∑ k ∈ Finset.range l.length, f (l.getD k d) * 2 ^ (l.length - 1 - k) := by
  rw [bitsToNat_eq_sum, List.length_map]
  apply Finset.sum_congr rfl
  intro k hk
  have hk' : k < l.length := Finset.mem_range.mp hk
  rw [List.getD_eq_getElem _ _ (by simpa using hk'),
    List.getD_eq_getElem _ _ hk', List.getElem_map]

/-! ### The claims -/

/-- C5 (confirmed): for fixed configuration and seed, numerize(tokenize(x))
is deterministic.  Because SignalTokenizer.__init__ calls
np.random.seed(random_seed) before drawing the basis, the constructed
instance — hence the regenerated projection basis and the whole pipeline
output — does not depend on the incoming global random state (g1 vs g2),
so two instances built with the same seed and parameters agree
bit-for-bit, and repeated calls on one instance agree trivially. -/
theorem claim_C5_determinism (num_embeddings padding_idx window_size stride : ℕ)
    (pv : ℚ) (seed g1 g2 : ℕ) (x : List ℚ) :
    (mkSignalTokenizer num_embeddings padding_idx window_size stride pv seed g1).1
      = (mkSignalTokenizer num_embeddings padding_idx window_size stride pv seed g2).1 ∧
    runSignal (mkSignalTokenizer num_embeddings padding_idx window_size stride pv seed g1).1 x
      = runSignal (mkSignalTokenizer num_embeddings padding_idx window_size stride pv seed g2).1 x ∧
    runSignal (mkSignalTokenizer num_embeddings padding_idx window_size stride pv seed g1).1 x
      = runSignal (mkSignalTokenizer num_embeddings padding_idx window_size stride pv seed g1).1 x :=
  ⟨rfl, rfl, rfl⟩

/-- C10 (confirmed): the positional numerize maps only the characters
component through the string hash and returns the positions component
exactly unchanged. -/
theorem claim_C10_positions_preserved (sha3 : String → ℕ)
    (num_embeddings padding_idx : ℕ) (chars : List Char) (positions : List ℤ) :
    posNumerize sha3 num_embeddings padding_idx (chars, positions)
      = (chars.map (fun c => hbNumerize sha3 num_embeddings padding_idx (String.mk [c])),
         positions) ∧
    (posNumerize sha3 num_embeddings padding_idx (chars, positions)).2 = positions :=
  ⟨rfl, rfl⟩

/-- C9 (confirmed): the precise positional policy gives character i the
position min(i, max_positional - 1); a word of length 12 with
max_positional = 10 gets positions [0,1,2,3,4,5,6,7,8,9,9,9]. -/
theorem claim_C9_precise_positions (chars : List Char) (max_positional : ℤ)
    (hpos : 0 < max_positional) :
    (positionize max_positional chars).1 = chars ∧
    (positionize max_positional chars).2.length = chars.length ∧
    (∀ i, i < chars.length →
      (positionize max_positional chars).2.getD i 0
        = min (i : ℤ) (max_positional - 1)) ∧
    (positionize 10 "abcdefghijkl".toList).2 = [0, 1, 2, 3, 4, 5, 6, 7, 8, 9, 9, 9] := by
  refine ⟨rfl, by simp [positionize], ?_, by with_unfolding_all decide⟩
  intro i hi
  show ((List.range chars.length).map
      (fun (i : ℕ) => min (i : ℤ) (max_positional - 1))).getD i 0 = _
  rw [List.getD_eq_getElem _ _ (by simpa using hi), List.getElem_map,
    List.getElem_range]

theorem claim_C9_precise_positions_witness :
    (0 : ℤ) < 10 ∧ (positionize 10 "hello".toList).1 = "hello".toList :=
  ⟨by decide, (claim_C9_precise_positions "hello".toList 10 (by decide)).1⟩

/-- C8 (confirmed, with word2ngram and word2skipngram modelled from the
spec): the gram list of a word is all n-grams for each configured n in
order, followed by all skip-grams for each configured k in order, as flat
concatenation; "hello" gives ["hel","ell","llo"] for n = 3 and
["hlo","el"] for k = 2. -/
theorem claim_C8_ngram_order (ngrams skipngrams : List ℕ) (word : List Char) :
    gramsOfWord ngrams skipngrams word
      = (ngrams.map (word2ngram word)).flatten
        ++ (skipngrams.map (word2skipngram word)).flatten ∧
    word2ngram "hello".toList 3 = ["hel".toList, "ell".toList, "llo".toList] ∧
    word2skipngram "hello".toList 2 = ["hlo".toList, "el".toList] ∧
    gramsOfWord [3] [2] "hello".toList
      = ["hel".toList, "ell".toList, "llo".toList, "hlo".toList, "el".toList] := by
  refine ⟨?_, by decide, by decide, by decide⟩
  unfold gramsOfWord
  rw [foldl_append_flatten, foldl_append_flatten]
  simp

/-- C7 (code_bug): SpectrogramTokenizer.__init__ passes its arguments to
SignalTokenizer.__init__ positionally while omitting padding_idx, so every
parameter lands in the wrong slot: the constructed instance windows with
window_size := stride, stride := padding_value and padding_value :=
random_seed instead of the values given at construction (and the
shorten_signal method, defined without self, raises AttributeError when
called, so the trim-then-window pipeline never runs). -/
theorem claim_C7_init_misbinding (num_embeddings sampling_rate n_fft hop_length
    window_size stride : ℕ) (padding_value : ℚ) (random_seed g : ℕ) :
    (mkSpectrogram num_embeddings sampling_rate n_fft hop_length window_size
        stride padding_value random_seed g).1.padding_idx = window_size ∧
    (mkSpectrogram num_embeddings sampling_rate n_fft hop_length window_size
        stride padding_value random_seed g).1.window_size = stride ∧
    (mkSpectrogram num_embeddings sampling_rate n_fft hop_length window_size
        stride padding_value random_seed g).1.stride = padding_value ∧
    (mkSpectrogram num_embeddings sampling_rate n_fft hop_length window_size
        stride padding_value random_seed g).1.padding_value = (random_seed : ℚ) ∧
    (stride ≠ window_size →
      (mkSpectrogram num_embeddings sampling_rate n_fft hop_length window_size
        stride padding_value random_seed g).1.window_size ≠ window_size) :=
  ⟨rfl, rfl, rfl, rfl, fun h => h⟩

theorem claim_C7_init_misbinding_witness :
    (1 : ℕ) ≠ 9 ∧
    (mkSpectrogram 1000 22050 2000 100 9 1 (-80) 0 0).1.window_size ≠ 9 :=
  ⟨by decide,
   (claim_C7_init_misbinding 1000 22050 2000 100 9 1 (-80) 0 0).2.2.2.2 (by decide)⟩

/-- C6 (confirmed): the basis drawn at construction has exactly
ceil(log2(num_embeddings)) rows (ceilLog2 is certified as the least e with
n ≤ 2 ^ e, and equals 10 at num_embeddings = 1000), and for every window
the quantizer computes bit k = 1 iff the dot product with basis row k is
positive, reads the bits with bit 0 most significant as a binary number and
reduces it modulo num_embeddings (the code then clamps the result below at
padding_idx + 1). -/
theorem claim_C6_lsh_quantizer (num_embeddings padding_idx window_size stride : ℕ)
    (pv : ℚ) (seed g : ℕ) :
    ((mkSignalTokenizer num_embeddings padding_idx window_size stride pv seed g).1.random_vecs.length
        = ceilLog2 num_embeddings) ∧
    ceilLog2 1000 = 10 ∧
    num_embeddings ≤ 2 ^ ceilLog2 num_embeddings ∧
    (∀ e, num_embeddings ≤ 2 ^ e → ceilLog2 num_embeddings ≤ e) ∧
    (∀ (basis : List (List ℚ)) (N pidx : ℕ) (v : List ℚ),
      signalNumerize basis N pidx [v]
        = [max ((∑ k ∈ Finset.range basis.length,
              (if 0 < dot v (basis.getD k []) then 1 else 0)
                * 2 ^ (basis.length - 1 - k)) % N)
            (pidx + 1)]) := by
  refine ⟨?_, by decide, le_two_pow_ceilLog2 _, fun e he => ceilLog2_le _ e he, ?_⟩
  · simp [mkSignalTokenizer, npNormal]
  · intro basis N pidx v
    simp only [signalNumerize, List.map_cons, List.map_nil]
    rw [bitsToNat_map_eq_sum (fun r => if 0 < dot v r then 1 else 0) basis []
      (by simp [dot])]

theorem claim_C6_lsh_quantizer_witness :
    1000 ≤ 2 ^ 10 ∧ ceilLog2 1000 ≤ 10 :=
  ⟨by decide, (claim_C6_lsh_quantizer 1000 0 9 1 0 0 0).2.2.2.1 10 (by decide)⟩

/-- C1 counterexample: the claim fails on the LSH signal path.  A
SignalTokenizer with num_embeddings = 1000, padding_idx = 0 maps the
all-zero signal of window size 4 to the single id 1 (all dot products are
0, not > 0, the binary number is 0, and the clamp is padding_idx + 1 = 1,
not padding_idx + len(special_tokens) = 5), so an id below
padding_idx + 5 IS emitted by a hashing path. -/
theorem claim_C1_counterexample :
    runSignal (mkSignalTokenizer 1000 0 4 2 0 7 0).1 [0, 0, 0, 0] = .ok [1] ∧
    specialTokens.length = 5 ∧
    (mkSignalTokenizer 1000 0 4 2 0 7 0).1.padding_idx = 0 ∧
    ¬ (0 + 5 ≤ 1) := by
  exact ⟨by with_unfolding_all decide, by decide, by with_unfolding_all decide, by decide⟩

/-- C1 (corrected): the reserved-range bound with the 5-wide special-token
region holds only for the cryptographic string-hashing path.  The LSH
signal path clamps below at padding_idx + 1 only, so its ids satisfy
padding_idx + 1 ≤ t < num_embeddings; the image path emits no ids at all —
its numerize raises a TypeError (str.join over an int array) whenever any
window row exists. -/
theorem claim_C1_reserved_range_amended (num_embeddings padding_idx digest : ℕ)
    (h5 : padding_idx + 5 < num_embeddings)
    (basis : List (List ℚ)) (tokens : List (List ℚ))
    (rv : List (List ℚ)) (itokens : List (List (List (List ℚ))))
    (hne : itokens.any (fun row => !row.isEmpty) = true) :
    (padding_idx + 5 ≤ hashClamp digest num_embeddings padding_idx ∧
      hashClamp digest num_embeddings padding_idx < num_embeddings) ∧
    (∀ t ∈ signalNumerize basis num_embeddings padding_idx tokens,
      padding_idx + 1 ≤ t ∧ t < num_embeddings) ∧
    imageNumerize rv num_embeddings itokens = .error .typeError := by
  have hN : 0 < num_embeddings := by omega
  refine ⟨⟨?_, ?_⟩, ?_, ?_⟩
  · exact le_max_right _ _
  · have hmod : digest % num_embeddings < num_embeddings := Nat.mod_lt _ hN
    exact max_lt hmod (by simpa [specialTokens] using h5)
  · intro t ht
    simp only [signalNumerize, List.mem_map] at ht
    obtain ⟨v, hv, rfl⟩ := ht
    refine ⟨le_max_right _ _, ?_⟩
    have hmod : bitsToNat (basis.map fun r => if 0 < dot v r then 1 else 0)
        % num_embeddings < num_embeddings := Nat.mod_lt _ hN
    exact max_lt hmod (by omega)
  · simp [imageNumerize, hne]

theorem claim_C1_reserved_range_amended_witness :
    ((0 : ℕ) + 5 < 100 ∧
      ([[[[(0 : ℚ)]]]] : List (List (List (List ℚ)))).any (fun row => !row.isEmpty) = true) ∧
    ((0 + 5 ≤ hashClamp 0 100 0 ∧ hashClamp 0 100 0 < 100) ∧
      (∀ t ∈ signalNumerize [] 100 0 [], 0 + 1 ≤ t ∧ t < 100) ∧
      imageNumerize [] 100 [[[[(0 : ℚ)]]]] = .error .typeError) :=
  ⟨⟨by decide, by decide⟩,
   claim_C1_reserved_range_amended 100 0 0 (by decide) [] [] [] [[[[(0 : ℚ)]]]] (by decide)⟩

/-- C2 (code_bug): on the 2x2 image [[1,2],[3,4]] with 1x1 windows and
stride 1, the code's window (i, j) uses the ROW index i for the column
slice as well (start_x = i * stride, Tokenizer.py line 320), giving
[[1]],[[1]] / [[4]],[[4]] — whereas the per-axis contract stated by the
claim gives [[1]],[[2]] / [[3]],[[4]] (column slice at the column index
j's offset).  The two extractions differ on this input. -/
theorem claim_C2_code_behavior :
    imageWindows 1 1 1 0 [[1, 2], [3, 4]] = .ok [[[[1]], [[1]]], [[[4]], [[4]]]] ∧
    imageWindowsClaimed 1 1 1 0 [[1, 2], [3, 4]] = .ok [[[[1]], [[2]]], [[[3]], [[4]]]] ∧
    imageWindows 1 1 1 0 [[1, 2], [3, 4]]
      ≠ imageWindowsClaimed 1 1 1 0 [[1, 2], [3, 4]] := by
  exact ⟨by with_unfolding_all decide, by with_unfolding_all decide,
    by with_unfolding_all decide⟩

/-- C3 counterexample: with window_size 1 and stride 2 (stride larger than
the window), the signal [5, 42, 7] of length 3 ≥ 1 produces the windows
[[5], [7]] — the middle sample 42 appears in no window, refuting the
claim's "every original sample appears verbatim in at least one window". -/
theorem claim_C3_counterexample :
    signalWindows 1 2 0 [5, 42, 7] = .ok [[5], [7]] ∧
    (∀ w ∈ ([[5], [7]] : List (List ℚ)), (42 : ℚ) ∉ w) := by
  exact ⟨by with_unfolding_all decide, by with_unfolding_all decide⟩

theorem claim_C3_window_shape_amended_witness :
    ((1 : ℕ) ≤ 2 ∧ (1 : ℕ) ≤ 1 ∧ 2 ≤ ([1, 2, 3] : List ℚ).length) ∧
    (∃ ws, signalWindows 2 1 0 [1, 2, 3] = Except.ok ws ∧
      (ws.length : ℤ) = 2 ∧ ∀ w ∈ ws, w.length = 2) := by
  refine ⟨⟨by decide, by decide, by decide⟩, ?_⟩
  obtain ⟨ws, h1, h2, h3, -, -⟩ :=
    claim_C3_window_shape_amended 2 1 0 [1, 2, 3] (by decide) (by decide) (by decide)
  exact ⟨ws, h1, h2.trans (by with_unfolding_all decide), h3⟩

/-- C4 counterexample: for the length-5 signal [1,2,3,4,5] with window 10
and stride 3, output_length = ceil((5-10)/3 + 1) = 0 ≤ 0, and the code
fails with numpy's generic ValueError from concatenating an empty list of
windows — not with a dedicated malformed-input/configuration error (no
such error class exists in or is raised by the code). -/
theorem claim_C4_counterexample :
    signalWindows 10 3 0 [1, 2, 3, 4, 5] = .error .valueErrorConcat ∧
    signalWindows 10 3 0 [1, 2, 3, 4, 5] ≠ .error .malformedInput := by
  exact ⟨by with_unfolding_all decide, by with_unfolding_all decide⟩

/-- C4 (corrected): whenever output_length ≤ 0 the extractor does fail
eagerly rather than silently returning malformed or wrong-size output, but
the failure is numpy's generic ValueError raised by np.concatenate on an
empty window list, not a dedicated malformed-input/configuration error. -/
theorem claim_C4_rejection_amended (window_size stride : ℕ) (p : ℚ)
    (signal : List ℚ) (hS : 0 < stride)
    (h : ⌈((signal.length : ℚ) - (window_size : ℚ)) / (stride : ℚ) + 1⌉ ≤ 0) :
    signalWindows window_size stride p signal = .error .valueErrorConcat := by
  have h1 := padding_nonneg signal.length window_size stride hS
  unfold signalWindows
  rw [if_neg (by omega : ¬ stride = 0), if_neg (by omega), if_pos h]

theorem claim_C4_rejection_amended_witness :
    ((0 : ℕ) < 3 ∧
      ⌈((([1, 2, 3, 4, 5] : List ℚ).length : ℚ) - (10 : ℚ)) / (3 : ℚ) + 1⌉ ≤ 0) ∧
    signalWindows 10 3 0 [1, 2, 3, 4, 5] = .error .valueErrorConcat :=
  ⟨⟨by decide, by with_unfolding_all decide⟩,
   claim_C4_rejection_amended 10 3 0 [1, 2, 3, 4, 5] (by decide)
     (by with_unfolding_all decide)⟩
